import Mathlib

/-!
Verification of the March Madness feature-engineering pipeline
(notebooks/02_feature_engineering.ipynb).

The notebook is a four-stage batch pipeline over in-memory tables:
season game records are aggregated into per-team stats (`team_stats`),
annotated with parsed seed values, joined onto tournament matchups for
the winner and loser side, and reduced to differential feature rows
(`model_data`).  We embed each stage as a pure function over lists and
prove or refute the specified properties.
-/

namespace MarchMadness

/-- One completed game, a row of `MRegularSeasonCompactResults.csv` /
`MNCAATourneyCompactResults.csv` (columns used by the notebook). -/
structure GameRecord where
  Season : Nat
  WTeamID : Nat
  WScore : Nat
  LTeamID : Nat
  LScore : Nat
deriving DecidableEq

/-- One row of `MNCAATourneySeeds.csv`. -/
structure SeedRow where
  Season : Nat
  TeamID : Nat
  Seed : String
deriving DecidableEq

/-- A row of the notebook's `team_stats` dataframe (after the seed merge;
before it, `SeedValue` is `none`). -/
structure TeamStats where
  WTeamID : Nat
  Wins : Nat
  TotalGames : Nat
  WinPercentage : ℚ
  AvgPointsScored : Option ℚ
  AvgPointsAllowed : Option ℚ
  PointDifferential : Option ℚ
  SeedValue : Option Int
deriving DecidableEq

/-- A row of `tourney_results` after both stat merges: the matchup plus the
stats block matched for the winning side (`W_` columns) and for the losing
side (`L_` columns); `none` models the NaN block of an unmatched left join. -/
structure JoinedRow where
  Matchup : GameRecord
  WStats : Option TeamStats
  LStats : Option TeamStats
deriving DecidableEq

/-- A row of the notebook's final `model_data` dataframe. -/
structure FeatureRow where
  WinPercentage_Diff : Option ℚ
  AvgPointsScored_Diff : Option ℚ
  AvgPointsAllowed_Diff : Option ℚ
  PointDifferential_Diff : Option ℚ
  SeedValue_Diff : Option ℚ
  Result : Nat
deriving DecidableEq

/-! ### Python `int(...)` and the seed-code lambda -/

/-- Strip leading and trailing whitespace, as Python's `int(str)` does
before parsing. -/
def stripWs (cs : List Char) : List Char :=
  ((cs.dropWhile Char.isWhitespace).reverse.dropWhile Char.isWhitespace).reverse

/-- Value of a run of decimal digit characters. -/
def digitsVal (cs : List Char) : Nat :=
  cs.foldl (fun a c => a * 10 + (c.toNat - 48)) 0

/-- Python's `int(s)` on a string: optional surrounding whitespace, an
optional single sign, then a nonempty run of decimal digits; anything else
raises `ValueError` (modelled as `none`). -/
def pyIntOfChars (cs : List Char) : Option Int :=
  match stripWs cs with
  | [] => none
  | c :: rest =>
    if c = '+' then
      if rest ≠ [] ∧ rest.all Char.isDigit then some ((digitsVal rest : Nat) : Int) else none
    else if c = '-' then
      if rest ≠ [] ∧ rest.all Char.isDigit then some (-((digitsVal rest : Nat) : Int)) else none
    else
      if (c :: rest).all Char.isDigit then some ((digitsVal (c :: rest) : Nat) : Int) else none

/-- The notebook's seed lambda `lambda x: int(x[1:3])`: Python slice
`x[1:3]` (characters at indices 1 and 2, clamped to the string length)
fed to `int`. -/
def seedValueOf (s : String) : Option Int :=
  pyIntOfChars ((s.toList.drop 1).take 2)

/-- `seeds["SeedValue"] = seeds["Seed"].apply(...)` plus the projection
`seeds[["TeamID", "SeedValue"]]` used by the merge: parse every seed code
(the whole run fails on the first `ValueError`) and keep only team id and
seed value — the `Season` column is dropped. -/
def seedVals : List SeedRow → Option (List (Nat × Int))
  | [] => some []
  | e :: rest =>
    match seedValueOf e.Seed, seedVals rest with
    | some v, some tl => some ((e.TeamID, v) :: tl)
    | _, _ => none

/-! ### Team Season Aggregator (`team_stats` cell) -/

/-- Distinct keys of a groupby, one output key per distinct input value. -/
def uniqueTeams : List Nat → List Nat
  | [] => []
  | k :: ks => if k ∈ ks then uniqueTeams ks else k :: uniqueTeams ks

/-- `season_results.groupby("WTeamID").size()` at key `t`. -/
def winCount (log : List GameRecord) (t : Nat) : Nat :=
  log.countP (fun g => g.WTeamID == t)

/-- `season_results.groupby("LTeamID").size()` at key `t`. -/
def lossCount (log : List GameRecord) (t : Nat) : Nat :=
  log.countP (fun g => g.LTeamID == t)

/-- Sum of `WScore` over the games team `t` won. -/
def sumWScore (log : List GameRecord) (t : Nat) : Nat :=
  ((log.filter (fun g => g.WTeamID == t)).map (fun g => g.WScore)).sum

/-- Sum of `LScore` over the games team `t` lost (the notebook groups
`LScore` — the losing team's own score — by `LTeamID`). -/
def sumLScore (log : List GameRecord) (t : Nat) : Nat :=
  ((log.filter (fun g => g.LTeamID == t)).map (fun g => g.LScore)).sum

/-- The `team_stats` row for team `t`: wins and total games from the two
groupby sizes, `WinPercentage = Wins / TotalGames`,
`AvgPointsScored = mean of WScore over wins` (absent when `t` never won),
`AvgPointsAllowed = mean of LScore over losses` (absent when `t` never
lost), `PointDifferential = AvgPointsScored - AvgPointsAllowed` (absent
when either side is). `SeedValue` is filled by the later seed merge. -/
def mkStatsRow (log : List GameRecord) (t : Nat) : TeamStats :=
  let w := winCount log t
  let l := lossCount log t
  let scored : Option ℚ := if w = 0 then none else some ((sumWScore log t : ℚ) / (w : ℚ))
  let allowed : Option ℚ := if l = 0 then none else some ((sumLScore log t : ℚ) / (l : ℚ))
  { WTeamID := t
    Wins := w
    TotalGames := w + l
    WinPercentage := (w : ℚ) / ((w + l : Nat) : ℚ)
    AvgPointsScored := scored
    AvgPointsAllowed := allowed
    PointDifferential :=
      match scored, allowed with
      | some a, some b => some (a - b)
      | _, _ => none
    SeedValue := none }

/-- The aggregator: `win_counts` is `groupby("WTeamID").size()`, and every
later merge is a left join onto it, so the table has exactly one row per
distinct winning team id of the log. -/
def team_stats (log : List GameRecord) : List TeamStats :=
  (uniqueTeams (log.map (fun g => g.WTeamID))).map (mkStatsRow log)

/-! ### Left joins (`pd.merge(..., how="left")`) -/

/-- `how="left"` merge: each left row is paired with every matching right
row in order, or with `none` (a NaN block) when no right row matches. -/
def leftMerge {A B : Type} (l : List A) (r : List B) (p : A → B → Bool) :
    List (A × Option B) :=
  match l with
  | [] => []
  | a :: rest =>
    (let ms := r.filter (p a)
     if ms.isEmpty then [(a, none)] else ms.map (fun b => (a, some b))) ++
    leftMerge rest r p

/-- The seed-annotation merge:
`team_stats.merge(seeds[["TeamID", "SeedValue"]], left_on="WTeamID",
right_on="TeamID", how="left")` — keyed on team id only, since the
`Season` column was dropped from the seed projection. -/
def seeded_team_stats (log : List GameRecord) (sv : List (Nat × Int)) :
    List TeamStats :=
  (leftMerge (team_stats log) sv (fun r q => q.1 == r.WTeamID)).map
    (fun x => { x.1 with SeedValue := x.2.map (fun q => q.2) })

/-- The two tournament merges: stats joined for the winner
(`left_on="WTeamID"`) and then for the loser (`left_on="LTeamID"`,
`right_on="WTeamID"`), both `how="left"` and keyed on team id only. -/
def tourney_joined (tourney : List GameRecord) (stats : List TeamStats) :
    List JoinedRow :=
  (leftMerge (leftMerge tourney stats (fun m r => r.WTeamID == m.WTeamID))
      stats (fun x r => r.WTeamID == x.1.LTeamID)).map
    (fun y => { Matchup := y.1.1, WStats := y.1.2, LStats := y.2 })

/-! ### Differential Feature Builder (`model_data` cell) -/

/-- Pandas subtraction of two possibly-NaN columns: NaN propagates. -/
def osub (a b : Option ℚ) : Option ℚ :=
  match a, b with
  | some x, some y => some (x - y)
  | _, _ => none

/-- One `model_data` row: the five `W_ - L_` differences plus
`Result = 1`.  A missing stats block (unmatched join) makes every field of
that side missing. -/
def featureOf (j : JoinedRow) : FeatureRow :=
  { WinPercentage_Diff :=
      osub (j.WStats.map (fun r => r.WinPercentage)) (j.LStats.map (fun r => r.WinPercentage))
    AvgPointsScored_Diff :=
      osub (j.WStats.bind (fun r => r.AvgPointsScored)) (j.LStats.bind (fun r => r.AvgPointsScored))
    AvgPointsAllowed_Diff :=
      osub (j.WStats.bind (fun r => r.AvgPointsAllowed)) (j.LStats.bind (fun r => r.AvgPointsAllowed))
    PointDifferential_Diff :=
      osub (j.WStats.bind (fun r => r.PointDifferential)) (j.LStats.bind (fun r => r.PointDifferential))
    SeedValue_Diff :=
      osub (j.WStats.bind (fun r => r.SeedValue.map (fun i => (i : ℚ))))
        (j.LStats.bind (fun r => r.SeedValue.map (fun i => (i : ℚ))))
    Result := 1 }

/-- The final projection cell. -/
def model_data (joined : List JoinedRow) : List FeatureRow :=
  joined.map featureOf

/-- The whole notebook pipeline: parse seeds (a `ValueError` anywhere kills
the run), build and annotate team stats, join them onto the tournament
games and emit the feature rows. -/
def pipeline (season tourney : List GameRecord) (sd : List SeedRow) :
    Option (List FeatureRow) :=
  (seedVals sd).map
    (fun sv => model_data (tourney_joined tourney (seeded_team_stats season sv)))

/-! ### Helper lemmas: groupby keys -/

lemma mem_uniqueTeams {l : List Nat} {t : Nat} : t ∈ uniqueTeams l ↔ t ∈ l := by
  induction l with
  | nil => simp [uniqueTeams]
  | cons k ks ih =>
    by_cases hk : k ∈ ks
    · rw [uniqueTeams, if_pos hk, ih, List.mem_cons]
      constructor
      · exact Or.inr
      · rintro (rfl | h)
        · exact hk
        · exact h
    · rw [uniqueTeams, if_neg hk, List.mem_cons, List.mem_cons, ih]

lemma countP_uniqueTeams (l : List Nat) (t : Nat) :
    (uniqueTeams l).countP (fun k => k == t) = if t ∈ l then 1 else 0 := by
  induction l with
  | nil => simp [uniqueTeams]
  | cons k ks ih =>
    by_cases hk : k ∈ ks
    · rw [uniqueTeams, if_pos hk, ih]
      have hmem : (t ∈ k :: ks) ↔ t ∈ ks := by
        rw [List.mem_cons]
        constructor
        · rintro (rfl | h)
          · exact hk
          · exact h
        · exact Or.inr
      by_cases ht : t ∈ ks
      · rw [if_pos ht, if_pos (hmem.mpr ht)]
      · rw [if_neg ht, if_neg (fun hx => ht (hmem.mp hx))]
    · rw [uniqueTeams, if_neg hk, List.countP_cons, ih]
      by_cases htk : t = k
      · subst htk
        simp [hk]
      · have : (k == t) = false := by simp [Ne.symm htk]
        simp [this, List.mem_cons, htk]

/-! ### Helper lemmas: left joins -/

lemma length_leftMerge_ge {A B : Type} (l : List A) (r : List B) (p : A → B → Bool) :
    l.length ≤ (leftMerge l r p).length := by
  induction l with
  | nil => simp [leftMerge]
  | cons a rest ih =>
    rw [leftMerge, List.length_append]
    have h1 : 1 ≤ (if (r.filter (p a)).isEmpty then [(a, (none : Option B))]
        else (r.filter (p a)).map (fun b => (a, some b))).length := by
      by_cases hE : (r.filter (p a)).isEmpty
      · rw [if_pos hE]
        simp
      · rw [if_neg hE, List.length_map]
        have : r.filter (p a) ≠ [] := fun h => hE (List.isEmpty_iff.mpr h)
        have := List.length_pos.mpr this
        omega
    simp only [List.length_cons] at *
    omega

lemma length_leftMerge_eq {A B : Type} (l : List A) (r : List B) (p : A → B → Bool)
    (h : ∀ a, (r.filter (p a)).length ≤ 1) :
    (leftMerge l r p).length = l.length := by
  induction l with
  | nil => simp [leftMerge]
  | cons a rest ih =>
    rw [leftMerge, List.length_append, ih]
    have h1 : (if (r.filter (p a)).isEmpty then [(a, (none : Option B))]
        else (r.filter (p a)).map (fun b => (a, some b))).length = 1 := by
      by_cases hE : (r.filter (p a)).isEmpty
      · rw [if_pos hE]
        rfl
      · rw [if_neg hE, List.length_map]
        have hne : r.filter (p a) ≠ [] := fun hx => hE (List.isEmpty_iff.mpr hx)
        have := List.length_pos.mpr hne
        have := h a
        omega
    rw [h1]
    simp [Nat.add_comm]

lemma exists_mem_leftMerge {A B : Type} (l : List A) (r : List B) (p : A → B → Bool)
    {a : A} (ha : a ∈ l) : ∃ ob, (a, ob) ∈ leftMerge l r p := by
  induction l with
  | nil => cases ha
  | cons x rest ih =>
    rcases List.mem_cons.mp ha with rfl | h
    · by_cases hE : (r.filter (p a)).isEmpty
      · refine ⟨none, ?_⟩
        rw [leftMerge, if_pos hE]
        exact List.mem_append_left _ (List.mem_singleton.mpr rfl)
      · have hne : r.filter (p a) ≠ [] := fun hx => hE (List.isEmpty_iff.mpr hx)
        obtain ⟨b, hb⟩ := List.exists_mem_of_ne_nil _ hne
        refine ⟨some b, ?_⟩
        rw [leftMerge, if_neg hE]
        exact List.mem_append_left _ (List.mem_map_of_mem _ hb)
    · obtain ⟨ob, hob⟩ := ih h
      refine ⟨ob, ?_⟩
      rw [leftMerge]
      exact List.mem_append_right _ hob

/-- A stats table whose team-id column has no duplicates matches each key
at most once. -/
lemma filter_key_length_le_one (stats : List TeamStats)
    (hnd : (stats.map (fun r => r.WTeamID)).Nodup) (t : Nat) :
    (stats.filter (fun r => r.WTeamID == t)).length ≤ 1 := by
  have h1 : (stats.filter (fun r => r.WTeamID == t)).length
      = stats.countP (fun r => r.WTeamID == t) :=
    Eq.symm (List.countP_eq_length_filter (fun r => r.WTeamID == t) stats)
  have h2 : stats.countP (fun r => r.WTeamID == t)
      = (stats.map (fun r => r.WTeamID)).countP (fun k => k == t) :=
    Eq.symm (List.countP_map (fun k => k == t) (fun r => r.WTeamID) stats)
  have h3 : (stats.map (fun r => r.WTeamID)).countP (fun k => k == t)
      = (stats.map (fun r => r.WTeamID)).count t := rfl
  rw [h1, h2, h3]
  exact List.nodup_iff_count_le_one.mp hnd t

/-! ### Helper lemmas: Python int parsing -/

lemma isWhitespace_eq_false_of_isDigit {c : Char} (h : c.isDigit = true) :
    c.isWhitespace = false := by
  cases hw : c.isWhitespace
  · rfl
  · exfalso
    simp only [Char.isWhitespace, Bool.or_eq_true, decide_eq_true_eq] at hw
    rcases hw with ((rfl | rfl) | rfl) | rfl <;> exact absurd h (by decide)

lemma dropWhile_ws_of_all_digits {cs : List Char} (h : ∀ c ∈ cs, c.isDigit = true) :
    cs.dropWhile Char.isWhitespace = cs := by
  cases cs with
  | nil => rfl
  | cons c rest =>
    rw [List.dropWhile_cons,
      isWhitespace_eq_false_of_isDigit (h c (List.mem_cons_self c rest))]
    simp

lemma stripWs_of_all_digits {cs : List Char} (h : ∀ c ∈ cs, c.isDigit = true) :
    stripWs cs = cs := by
  rw [stripWs, dropWhile_ws_of_all_digits h,
    dropWhile_ws_of_all_digits (fun c hc => h c (List.mem_reverse.mp hc)),
    List.reverse_reverse]

lemma pyInt_all_digits (c : Char) (cs : List Char)
    (h : ∀ x ∈ c :: cs, x.isDigit = true) :
    pyIntOfChars (c :: cs) = some ((digitsVal (c :: cs) : Nat) : Int) := by
  have hc := h c (List.mem_cons_self c cs)
  have hplus : c ≠ '+' := by
    rintro rfl
    exact absurd hc (by decide)
  have hminus : c ≠ '-' := by
    rintro rfl
    exact absurd hc (by decide)
  unfold pyIntOfChars
  rw [stripWs_of_all_digits h]
  simp only [hplus, hminus, if_false, reduceIte, List.all_eq_true.mpr h, if_true]

/-! ### C1 — one aggregator row per team? -/

/-- Season log for the C1 counterexample: team 1 beats team 2 once, so
team 2 appears only as a loser. -/
def log1 : List GameRecord := [⟨2023, 1, 70, 2, 60⟩]

/-- C1 (counterexample): the claim says every team appearing as a winner
or as a loser gets a `TeamSeasonStats` row, and that a team that only lost
gets a row with `won = 0`.  In `log1`, team 2 appears as a loser, yet the
aggregator emits no row at all for it: `win_counts` is grouped by
`WTeamID` and every later merge is a left join onto it. -/
theorem loser_only_team_has_no_row :
    2 ∈ log1.map (fun g => g.LTeamID) ∧
    (team_stats log1).countP (fun r => r.WTeamID == 2) = 0 := by
  constructor
  · decide
  · decide

/-- C1 (amended): the aggregator produces exactly one `TeamSeasonStats`
row for every team that appears as a winner in at least one game; a team
that appears only as a loser gets no row. -/
theorem aggregator_one_row_per_winner (log : List GameRecord) (t : Nat) :
    (team_stats log).countP (fun r => r.WTeamID == t) =
      if t ∈ log.map (fun g => g.WTeamID) then 1 else 0 := by
  rw [team_stats, List.countP_map]
  exact countP_uniqueTeams _ t

/-! ### C2 — what does "average points allowed" average? -/

/-- Modelled from the spec for the C2 comparison (§4.1: "Average points
allowed = mean of the opponent's score in games T lost"): the mean of the
winning side's `WScore` over the games `t` lost.  The notebook's own
aggregation is in `mkStatsRow`. -/
def AvgPointsAllowedSpec (log : List GameRecord) (t : Nat) : Option ℚ :=
  if lossCount log t = 0 then none
  else some ((((log.filter (fun g => g.LTeamID == t)).map (fun g => g.WScore)).sum : ℚ)
    / (lossCount log t : ℚ))

/-- Season log for C2: team 1 beats team 2 by 100–60, team 2 beats
team 3 by 80–70.  Team 2 allowed 100 points in its one loss while scoring
60 itself. -/
def log2 : List GameRecord :=
  [⟨2023, 1, 100, 2, 60⟩, ⟨2023, 2, 80, 3, 70⟩]

/-- C2 (code-bug evidence): the notebook computes `avg_points_allowed` by
grouping `LScore` — the losing team's *own* score — by `LTeamID`, so team
2's entry is 60, whereas the mean of the opposing winner's score over team
2's losses (what "points allowed" means, per the spec and the notebook's
own "Average Points Allowed (Defensive Strength)" description) is 100. -/
theorem avg_points_allowed_uses_own_score :
    ((team_stats log2).filter (fun r => r.WTeamID == 2)).map (fun r => r.AvgPointsAllowed)
        = [some (60 : ℚ)] ∧
    AvgPointsAllowedSpec log2 2 = some (100 : ℚ) ∧
    (60 : ℚ) ≠ 100 := by
  refine ⟨?_, ?_, by norm_num⟩
  · norm_num [team_stats, uniqueTeams, mkStatsRow, winCount, lossCount, sumWScore,
      sumLScore, log2]
  · norm_num [AvgPointsAllowedSpec, lossCount, log2]

/-! ### C5, C10 — the seed-code lambda -/

/-- C5 (counterexample): the claim says parsing raises for every code
whose two characters after the first are not decimal digits; but Python's
`int` also accepts a sign, so `"W+1"` (characters `'+'` and `'1'`) parses
to 1 instead of raising. -/
theorem seed_parse_accepts_plus_sign :
    seedValueOf "W+1" = some 1 ∧ Char.isDigit '+' = false := by
  constructor
  · decide
  · decide

/-- C5 (amended): seed parsing applies Python `int` to the two characters
after the first one: when both are decimal digits it returns their
two-digit value (so "W01" → 1, "Z16" → 16, "X10" → 10), and a slice that
is not a valid Python integer literal, such as the "0A" of "W0A", raises
`ValueError` — but slices int accepts, such as signed forms like "+1", do
not raise. -/
theorem seed_parse_two_digit_rule :
    (∀ (c d₁ d₂ : Char) (rest : List Char), d₁.isDigit = true → d₂.isDigit = true →
      seedValueOf (String.mk (c :: d₁ :: d₂ :: rest)) =
        some (((d₁.toNat - 48) * 10 + (d₂.toNat - 48) : Nat) : Int)) ∧
    seedValueOf "W0A" = none := by
  constructor
  · intro c d₁ d₂ rest h₁ h₂
    have hslice : (((String.mk (c :: d₁ :: d₂ :: rest)).toList.drop 1).take 2) = [d₁, d₂] :=
      rfl
    have hall : ∀ x ∈ [d₁, d₂], x.isDigit = true := by
      intro x hx
      rcases List.mem_cons.mp hx with rfl | hx2
      · exact h₁
      · rcases List.mem_cons.mp hx2 with rfl | hx3
        · exact h₂
        · cases hx3
    rw [seedValueOf, hslice, pyInt_all_digits d₁ [d₂] hall]
    simp only [digitsVal, List.foldl]
    norm_num
  · decide

/-- Witness for C5's amended rule at the concrete seed code "Z16". -/
theorem seed_parse_two_digit_rule_witness :
    seedValueOf (String.mk ['Z', '1', '6']) = some 16 :=
  Eq.trans (seed_parse_two_digit_rule.1 'Z' '1' '6' [] (by decide) (by decide)) (by decide)

/-- C10: the seed lambda never checks the code's length — for a
two-character code whose second character is a decimal digit, the slice
`x[1:3]` is that single digit and `int` returns its value instead of
raising. -/
theorem seed_parse_single_digit (c d : Char) (h : d.isDigit = true) :
    seedValueOf (String.mk [c, d]) = some ((d.toNat - 48 : Nat) : Int) := by
  have hslice : (((String.mk [c, d]).toList.drop 1).take 2) = [d] := rfl
  have hall : ∀ x ∈ [d], x.isDigit = true := by
    intro x hx
    rcases List.mem_cons.mp hx with rfl | hx2
    · exact h
    · cases hx2
  rw [seedValueOf, hslice, pyInt_all_digits d [] hall]
  simp [digitsVal]

/-- Witness for C10 at the concrete seed code "W1". -/
theorem seed_parse_single_digit_witness :
    seedValueOf (String.mk ['W', '1']) = some 1 :=
  Eq.trans (seed_parse_single_digit 'W' '1' (by decide)) (by decide)

/-! ### C3 — are joins season-scoped? -/

/-- Two seasons for the C3 counterexample: team 1 beats team 2 by 100–50
in season 1 and by 60–50 in season 2. -/
def log3 : List GameRecord := [⟨1, 1, 100, 2, 50⟩, ⟨2, 1, 60, 2, 50⟩]

/-- A season-2 tournament matchup between the same two teams. -/
def tourney3 : List GameRecord := [⟨2, 1, 88, 2, 75⟩]

/-- C3 (counterexample): the claim says the stats attached to a matchup
come from that matchup's own season.  For the season-2 matchup of
`tourney3`, the attached winner average-points-scored is 80 — the pooled
mean over both seasons — while season 2's own games give 60: the
aggregation and every join ignore the `Season` column. -/
theorem stats_leak_across_seasons :
    ((tourney_joined tourney3 (team_stats log3)).map
        (fun j => j.WStats.bind (fun r => r.AvgPointsScored))) = [some (80 : ℚ)] ∧
    ((team_stats (log3.filter (fun g => g.Season == 2))).filter
        (fun r => r.WTeamID == 1)).map (fun r => r.AvgPointsScored) = [some (60 : ℚ)] ∧
    (80 : ℚ) ≠ 60 := by
  refine ⟨?_, ?_, by norm_num⟩
  · norm_num [tourney_joined, leftMerge, team_stats, uniqueTeams, mkStatsRow, winCount,
      lossCount, sumWScore, sumLScore, log3, tourney3]
  · norm_num [team_stats, uniqueTeams, mkStatsRow, winCount, lossCount, sumWScore,
      sumLScore, log3]

lemma leftMerge_map_left {A A' B : Type} (f : A → A') (l : List A) (r : List B)
    (p : A' → B → Bool) :
    leftMerge (l.map f) r p =
      (leftMerge l r (fun a b => p (f a) b)).map (fun x => (f x.1, x.2)) := by
  induction l with
  | nil => rfl
  | cons a rest ih =>
    simp only [List.map_cons, leftMerge, List.map_append, ih]
    congr 1
    by_cases hE : (r.filter (p (f a))).isEmpty
    · rw [if_pos hE, if_pos hE]
      rfl
    · rw [if_neg hE, if_neg hE, List.map_map]
      rfl

lemma mkStatsRow_relabel (log : List GameRecord) (f : Nat → Nat) :
    mkStatsRow (log.map (fun g => { g with Season := f g.Season })) = mkStatsRow log := by
  funext t
  unfold mkStatsRow winCount lossCount sumWScore sumLScore
  simp only [List.countP_map, List.filter_map, List.map_map]
  rfl

/-- C3 (amended): every join and the aggregation itself are keyed on team
id alone — the season field of the matchups, the game log and the seed
table is ignored, so attached stats are pooled across all seasons rather
than scoped to the matchup's own season. -/
theorem joins_ignore_season :
    (∀ (tourney : List GameRecord) (stats : List TeamStats) (f : Nat → Nat),
      (tourney_joined (tourney.map (fun m => { m with Season := f m.Season })) stats).map
          (fun j => (j.WStats, j.LStats)) =
        (tourney_joined tourney stats).map (fun j => (j.WStats, j.LStats))) ∧
    (∀ (log : List GameRecord) (f : Nat → Nat),
      team_stats (log.map (fun g => { g with Season := f g.Season })) = team_stats log) ∧
    (∀ (sd : List SeedRow) (f : Nat → Nat),
      seedVals (sd.map (fun e => { e with Season := f e.Season })) = seedVals sd) := by
  refine ⟨?_, ?_, ?_⟩
  · intro tourney stats f
    unfold tourney_joined
    rw [leftMerge_map_left, leftMerge_map_left, List.map_map, List.map_map, List.map_map]
    rfl
  · intro log f
    unfold team_stats
    rw [mkStatsRow_relabel, List.map_map]
    rfl
  · intro sd f
    induction sd with
    | nil => rfl
    | cons e rest ih => simp only [List.map_cons, seedVals, ih]

/-! ### C4 — row-count preservation in the Matchup Joiner -/

/-- Season log for the C4 counterexample. -/
def seasonLog4 : List GameRecord := [⟨1, 1, 70, 2, 60⟩]

/-- Team 1 is seeded in two seasons; the seed merge drops the season
column, so `team_stats` gets two rows for team 1. -/
def seeds4 : List SeedRow := [⟨1, 1, "W01"⟩, ⟨2, 1, "W02"⟩]

/-- One tournament matchup. -/
def tourney4 : List GameRecord := [⟨1, 1, 88, 2, 75⟩]

/-- C4 (counterexample): the claim says output row count always equals
input matchup count; but a team with seed entries in two seasons
duplicates its stats row, and the left join then emits two output rows
for the single input matchup. -/
theorem joiner_duplicates_rows :
    (pipeline seasonLog4 tourney4 seeds4).map List.length = some 2 ∧
    tourney4.length = 1 := by
  constructor
  · decide
  · decide

/-- C4 (amended): the joiner never drops a matchup — every input matchup
yields at least one output row (with a missing stats block when a side has
no stats row), and the row count is preserved exactly when the stats table
has at most one row per team id (as with single-season inputs). -/
theorem joiner_row_count_policy (tourney : List GameRecord) (stats : List TeamStats) :
    tourney.length ≤ (tourney_joined tourney stats).length ∧
    ((stats.map (fun r => r.WTeamID)).Nodup →
      (tourney_joined tourney stats).length = tourney.length) ∧
    (∀ m ∈ tourney, ∃ j ∈ tourney_joined tourney stats, j.Matchup = m) := by
  refine ⟨?_, ?_, ?_⟩
  · rw [tourney_joined, List.length_map]
    exact le_trans (length_leftMerge_ge _ _ _) (length_leftMerge_ge _ _ _)
  · intro hnd
    rw [tourney_joined, List.length_map,
      length_leftMerge_eq _ _ _ (fun x => filter_key_length_le_one stats hnd _),
      length_leftMerge_eq _ _ _ (fun m => filter_key_length_le_one stats hnd _)]
  · intro m hm
    obtain ⟨ob, hob⟩ :=
      exists_mem_leftMerge tourney stats (fun m r => r.WTeamID == m.WTeamID) hm
    obtain ⟨ob2, hob2⟩ :=
      exists_mem_leftMerge _ stats (fun x r => r.WTeamID == x.1.LTeamID) hob
    refine ⟨⟨m, ob, ob2⟩, ?_, rfl⟩
    rw [tourney_joined]
    exact List.mem_map_of_mem _ hob2

/-- Witness inputs for the C4 amended theorem: a single-season run whose
stats table has one row per team. -/
def statsW4 : List TeamStats := [⟨1, 1, 1, 1, some 70, none, none, none⟩]

/-- Witness matchup table for the C4 amended theorem. -/
def tourneyW4 : List GameRecord := [⟨1, 1, 88, 2, 75⟩]

/-- Witness for C4's amended row-count rule on concrete tables. -/
theorem joiner_row_count_policy_witness :
    (tourney_joined tourneyW4 statsW4).length = tourneyW4.length :=
  (joiner_row_count_policy tourneyW4 statsW4).2.1 (by decide)

/-! ### C6 — differential symmetry under side swap -/

/-- Swapping which side of a joined matchup is treated as the winner. -/
def swapSides (j : JoinedRow) : JoinedRow :=
  { j with WStats := j.LStats, LStats := j.WStats }

/-- C6: for a joined row whose two stats blocks are present with every
paired attribute, swapping which side is winner and which is loser and
recomputing the Differential Feature Builder negates each of the five
differential features exactly. -/
theorem diff_features_negate_on_swap (j : JoinedRow) (w l : TeamStats)
    (wa la wb lb wc lc : ℚ) (ws ls : Int)
    (hw : j.WStats = some w) (hl : j.LStats = some l)
    (h1 : w.AvgPointsScored = some wa) (h2 : l.AvgPointsScored = some la)
    (h3 : w.AvgPointsAllowed = some wb) (h4 : l.AvgPointsAllowed = some lb)
    (h5 : w.PointDifferential = some wc) (h6 : l.PointDifferential = some lc)
    (h7 : w.SeedValue = some ws) (h8 : l.SeedValue = some ls) :
    (featureOf (swapSides j)).WinPercentage_Diff
        = some (-(w.WinPercentage - l.WinPercentage)) ∧
    (featureOf j).WinPercentage_Diff = some (w.WinPercentage - l.WinPercentage) ∧
    (featureOf (swapSides j)).AvgPointsScored_Diff = some (-(wa - la)) ∧
    (featureOf j).AvgPointsScored_Diff = some (wa - la) ∧
    (featureOf (swapSides j)).AvgPointsAllowed_Diff = some (-(wb - lb)) ∧
    (featureOf j).AvgPointsAllowed_Diff = some (wb - lb) ∧
    (featureOf (swapSides j)).PointDifferential_Diff = some (-(wc - lc)) ∧
    (featureOf j).PointDifferential_Diff = some (wc - lc) ∧
    (featureOf (swapSides j)).SeedValue_Diff = some (-((ws : ℚ) - (ls : ℚ))) ∧
    (featureOf j).SeedValue_Diff = some ((ws : ℚ) - (ls : ℚ)) := by
  simp [featureOf, swapSides, osub, hw, hl, h1, h2, h3, h4, h5, h6, h7, h8, neg_sub]

/-- Winner-side stats block for the C6 witness. -/
def exW : TeamStats := ⟨1, 3, 4, 3/4, some 80, some 60, some 20, some 2⟩

/-- Loser-side stats block for the C6 witness. -/
def exL : TeamStats := ⟨2, 1, 4, 1/4, some 65, some 75, some (-10), some 7⟩

/-- A fully populated joined row for the C6 witness. -/
def exJ : JoinedRow := ⟨⟨5, 1, 88, 2, 75⟩, some exW, some exL⟩

/-- Witness for C6 at a concrete fully populated joined row. -/
theorem diff_features_negate_on_swap_witness :
    (featureOf (swapSides exJ)).WinPercentage_Diff
        = some (-(exW.WinPercentage - exL.WinPercentage)) ∧
    (featureOf exJ).WinPercentage_Diff = some (exW.WinPercentage - exL.WinPercentage) ∧
    (featureOf (swapSides exJ)).AvgPointsScored_Diff = some (-((80 : ℚ) - 65)) ∧
    (featureOf exJ).AvgPointsScored_Diff = some ((80 : ℚ) - 65) ∧
    (featureOf (swapSides exJ)).AvgPointsAllowed_Diff = some (-((60 : ℚ) - 75)) ∧
    (featureOf exJ).AvgPointsAllowed_Diff = some ((60 : ℚ) - 75) ∧
    (featureOf (swapSides exJ)).PointDifferential_Diff = some (-((20 : ℚ) - (-10))) ∧
    (featureOf exJ).PointDifferential_Diff = some ((20 : ℚ) - (-10)) ∧
    (featureOf (swapSides exJ)).SeedValue_Diff = some (-(((2 : Int) : ℚ) - ((7 : Int) : ℚ))) ∧
    (featureOf exJ).SeedValue_Diff = some (((2 : Int) : ℚ) - ((7 : Int) : ℚ)) :=
  diff_features_negate_on_swap exJ exW exL 80 65 60 75 20 (-10) 2 7
    rfl rfl rfl rfl rfl rfl rfl rfl rfl rfl

/-! ### C8 — win-percentage bounds -/

/-- C8: every row the aggregator produces has `TotalGames > 0`, and its
win percentage lies in `[0, 1]`; the `played = 0` division-by-zero case is
unreachable, so the claimed loud failure never has to fire. -/
theorem win_percentage_bounds (log : List GameRecord) (r : TeamStats)
    (hr : r ∈ team_stats log) :
    0 < r.TotalGames ∧ 0 ≤ r.WinPercentage ∧ r.WinPercentage ≤ 1 := by
  obtain ⟨t, ht, rfl⟩ := List.mem_map.mp hr
  have htl : t ∈ log.map (fun g => g.WTeamID) := mem_uniqueTeams.mp ht
  obtain ⟨g, hg, hgt⟩ := List.mem_map.mp htl
  have hw : 0 < winCount log t := by
    rw [winCount]
    refine List.countP_pos_iff.mpr ⟨g, hg, ?_⟩
    simp [hgt]
  refine ⟨?_, ?_, ?_⟩
  · show 0 < winCount log t + lossCount log t
    omega
  · show (0 : ℚ) ≤ (winCount log t : ℚ) / ((winCount log t + lossCount log t : Nat) : ℚ)
    positivity
  · show (winCount log t : ℚ) / ((winCount log t + lossCount log t : Nat) : ℚ) ≤ 1
    rw [div_le_one (by exact_mod_cast (by omega : 0 < winCount log t + lossCount log t))]
    exact_mod_cast Nat.le_add_right _ _

/-- Season log for the C8 witness. -/
def log8 : List GameRecord := [⟨2024, 1, 70, 2, 60⟩]

/-- Witness for C8 at the one row aggregated from `log8`. -/
theorem win_percentage_bounds_witness :
    0 < (mkStatsRow log8 1).TotalGames ∧ 0 ≤ (mkStatsRow log8 1).WinPercentage ∧
      (mkStatsRow log8 1).WinPercentage ≤ 1 :=
  win_percentage_bounds log8 (mkStatsRow log8 1) (List.mem_singleton.mpr rfl)

/-! ### C9 — determinism -/

/-- C9: the pipeline is a pure function of its three input tables — two
runs on identical season results, tournament results and seed tables give
identical feature tables; no state is carried between runs. -/
theorem pipeline_deterministic (s₁ s₂ t₁ t₂ : List GameRecord) (d₁ d₂ : List SeedRow)
    (hs : s₁ = s₂) (ht : t₁ = t₂) (hd : d₁ = d₂) :
    pipeline s₁ t₁ d₁ = pipeline s₂ t₂ d₂ := by
  rw [hs, ht, hd]

/-- Witness for C9: two runs on the same (empty) tables coincide. -/
theorem pipeline_deterministic_witness :
    pipeline [] [] [] = pipeline [] [] [] :=
  pipeline_deterministic [] [] [] [] [] [] rfl rfl rfl

/-! ### C7 — the end-to-end scenario -/

/-- Season log realizing the spec's §8 scenario: team 1 ("A") wins with
scores 70, 80, 90 and loses once scoring 60; team 2 ("B") wins once with
65 and loses three times scoring 70, 75, 80; teams 3 and 4 are the
opponents. -/
def seasonLog7 : List GameRecord :=
  [⟨5, 1, 70, 3, 60⟩, ⟨5, 1, 80, 3, 60⟩, ⟨5, 1, 90, 3, 60⟩, ⟨5, 4, 100, 1, 60⟩,
   ⟨5, 2, 65, 3, 50⟩, ⟨5, 4, 100, 2, 70⟩, ⟨5, 4, 90, 2, 75⟩, ⟨5, 4, 95, 2, 80⟩]

/-- The single tournament matchup: team 1 beats team 2 by 88–75. -/
def tourney7 : List GameRecord := [⟨5, 1, 88, 2, 75⟩]

/-- Seeds "W02" for team 1 and "W07" for team 2. -/
def seeds7 : List SeedRow := [⟨5, 1, "W02"⟩, ⟨5, 2, "W07"⟩]

/-- C7: on the concrete scenario input the pipeline emits exactly one
feature row, with `WinPercentage_Diff = 1/2`, `AvgPointsScored_Diff = 15`,
`AvgPointsAllowed_Diff = -15`, `PointDifferential_Diff = 30`,
`SeedValue_Diff = -5` and `Result = 1`. -/
theorem end_to_end_scenario :
    pipeline seasonLog7 tourney7 seeds7 =
      some [⟨some (1/2 : ℚ), some 15, some (-15), some 30, some (-5), 1⟩] := by
  have hs : seedVals seeds7 = some [(1, 2), (2, 7)] := by decide
  have h1 : team_stats seasonLog7 =
      [mkStatsRow seasonLog7 1, mkStatsRow seasonLog7 2, mkStatsRow seasonLog7 4] := rfl
  have r1 : mkStatsRow seasonLog7 1 = ⟨1, 3, 4, 3/4, some 80, some 60, some 20, none⟩ := by
    rw [mkStatsRow]
    norm_num [winCount, lossCount, sumWScore, sumLScore, seasonLog7,
      List.countP_cons, List.countP_nil, List.filter_cons]
  have r2 : mkStatsRow seasonLog7 2 = ⟨2, 1, 4, 1/4, some 65, some 75, some (-10), none⟩ := by
    rw [mkStatsRow]
    norm_num [winCount, lossCount, sumWScore, sumLScore, seasonLog7,
      List.countP_cons, List.countP_nil, List.filter_cons]
  have r4 : mkStatsRow seasonLog7 4 = ⟨4, 4, 4, 1, some (385/4), none, none, none⟩ := by
    rw [mkStatsRow]
    norm_num [winCount, lossCount, sumWScore, sumLScore, seasonLog7,
      List.countP_cons, List.countP_nil, List.filter_cons]
  have h2 : seeded_team_stats seasonLog7 [(1, 2), (2, 7)] =
      [⟨1, 3, 4, 3/4, some 80, some 60, some 20, some 2⟩,
       ⟨2, 1, 4, 1/4, some 65, some 75, some (-10), some 7⟩,
       ⟨4, 4, 4, 1, some (385/4), none, none, none⟩] := by
    rw [seeded_team_stats, h1, r1, r2, r4]
    norm_num [leftMerge, List.filter_cons]
  have h3 : tourney_joined tourney7
        [⟨1, 3, 4, 3/4, some 80, some 60, some 20, some 2⟩,
         ⟨2, 1, 4, 1/4, some 65, some 75, some (-10), some 7⟩,
         ⟨4, 4, 4, 1, some (385/4), none, none, none⟩] =
      [⟨⟨5, 1, 88, 2, 75⟩, some ⟨1, 3, 4, 3/4, some 80, some 60, some 20, some 2⟩,
        some ⟨2, 1, 4, 1/4, some 65, some 75, some (-10), some 7⟩⟩] := by
    norm_num [tourney_joined, leftMerge, tourney7, List.filter_cons]
  rw [pipeline, hs, Option.map_some', h2, h3]
  norm_num [model_data, featureOf, osub]

end MarchMadness
